import Mathlib

/-!
# Verification of the NaPTAN / common-format import subsystem

A shallow embedding of `src/transxchange/naptan.rs` and `src/common_format.rs`
of the `navitia_model` repository, together with proofs about the embedded
functions.

Modelling conventions:

* A CSV record after the `csv` crate has parsed it (quotes removed, fields
  keyed by header name) is a `RawRecord`: an association list from header
  name to raw field text.  The `Trim::All` setting of the readers is modelled
  by trimming both the header name and the value at lookup time.
* The serde-derived decoding of a record into one of the typed rows
  (`NaPTANStop`, `NaPTANStopInArea`, `NaPTANStopArea`) is embedded as an
  explicit decoder: a field that is absent is an error (no field of the Rust
  structs is an `Option` and none carries `serde(default)`), and numeric
  fields go through a base-10 decimal parser.  Numbers are modelled as exact
  rationals (`Rat`); the claims under study never depend on binary
  floating-point rounding, and scientific-notation forms, which no claim
  uses, are out of scope of the parser.
* The PROJ converter from EPSG:27700 to WGS84 is an external library; it is
  modelled as an abstract parameter `convert : Point → Except String Point`,
  exactly the shape used at the call site `converter.convert(point)`.
* `Result<T>` is `Except String T`; a Rust panic (`unimplemented!()`) is
  modelled as an error value, which, like the panic, stops the surrounding
  function before any later step runs.
* `CollectionWithId` is not part of the two source files; following the
  specification it is modelled from the spec (§4.3) as an
  insertion-ordered list whose `push` fails on a duplicate identifier,
  whose `get` is lookup by identifier, and whose `try_merge` is repeated
  `push`, failing on the first collision.
* `HashMap<String, String>` is modelled by an association list in which an
  insertion prepends its pair, so that lookup (`hmGet`) sees the most recent
  insertion first: observably the overwrite ("last write wins") semantics of
  `HashMap::insert`.
-/

deriving instance DecidableEq for Except

/-- A parsed CSV record: raw field text keyed by (raw) header name. -/
abbrev RawRecord := List (String × String)

/-- Strip leading and trailing whitespace from a character list (the
`Trim::All` behaviour of the CSV readers in `naptan.rs`). -/
def trimChars (cs : List Char) : List Char :=
  ((cs.dropWhile Char.isWhitespace).reverse.dropWhile Char.isWhitespace).reverse

/-- Whitespace-trimming on strings, through the character list. -/
def strTrim (s : String) : String :=
  String.mk (trimChars s.toList)

/-- Field lookup in a `RawRecord`, with the `Trim::All` behaviour of the
readers in `naptan.rs`: both header names and values are trimmed. -/
def getField : RawRecord → String → Option String
  | [], _ => none
  | (k, v) :: rest, name =>
    if strTrim k = name then some (strTrim v) else getField rest name

/-- Fold a digit string into a natural number; fails on a non-digit. -/
def digitsToNat : List Char → Option Nat
  | [] => some 0
  | c :: rest =>
    if c.isDigit then
      (digitsToNat rest).map (fun n => (c.toNat - 48) * 10 ^ rest.length + n)
    else
      none

/-- Parse the digits of an unsigned decimal: an integer part, optionally
followed by a dot and a fractional part; at least one digit in total. -/
def parseUnsignedDecimal (cs : List Char) : Option Rat :=
  let intPart := cs.takeWhile (fun c => c ≠ '.')
  match cs.dropWhile (fun c => c ≠ '.') with
  | [] =>
    if intPart.length = 0 then none
    else (digitsToNat intPart).map (fun n => mkRat n 1)
  | _ :: fracPart =>
    if fracPart.contains '.' then none
    else if intPart.length + fracPart.length = 0 then none
    else
      match digitsToNat intPart, digitsToNat fracPart with
      | some i, some f =>
        some (mkRat (i * 10 ^ fracPart.length + f) (10 ^ fracPart.length))
      | _, _ => none

/-- Base-10 decimal parsing of a field into an exact rational, modelling the
`f64` parse performed by serde for the `Easting`/`Northing`/`Longitude`/
`Latitude` fields (plain decimal forms; no claim uses scientific notation). -/
def parseDecimal (s : String) : Option Rat :=
  match s.toList with
  | '-' :: rest => (parseUnsignedDecimal rest).map (fun q => -q)
  | cs => parseUnsignedDecimal cs

/-- `geo_types::Point` as used by `Point::new(easting, northing)`. -/
structure Point where
  x : Rat
  y : Rat
  deriving DecidableEq, Repr

/-- `objects::Coord` (lon/lat). -/
structure Coord where
  lon : Rat
  lat : Rat
  deriving DecidableEq, Repr

/-- `Coord::from(point)`: x is the longitude, y the latitude. -/
def Coord.ofPoint (p : Point) : Coord :=
  { lon := p.x, lat := p.y }

/-- The serde target of a `Stops.csv` row (`NaPTANStop` in `naptan.rs`):
every field, including `Indicator`, is a required field of the struct. -/
structure NaPTANStop where
  atco_code : String
  name : String
  longitude : Rat
  latitude : Rat
  indicator : String
  deriving DecidableEq, Repr

/-- The serde target of a `StopsInArea.csv` row (`NaPTANStopInArea`). -/
structure NaPTANStopInArea where
  atco_code : String
  stop_area_code : String
  deriving DecidableEq, Repr

/-- The serde target of a `StopAreas.csv` row (`NaPTANStopArea`). -/
structure NaPTANStopArea where
  stop_area_code : String
  name : String
  easting : Rat
  northing : Rat
  deriving DecidableEq, Repr

/-- serde decoding of a `NaPTANStop`: each named field is required (all the
struct fields are plain `String`/`f64`, none an `Option`), numeric fields
must parse as decimals. -/
def decodeStop (r : RawRecord) : Except String NaPTANStop :=
  match getField r "ATCOCode" with
  | none => .error "missing field ATCOCode"
  | some atco =>
  match getField r "CommonName" with
  | none => .error "missing field CommonName"
  | some name =>
  match getField r "Longitude" with
  | none => .error "missing field Longitude"
  | some lonStr =>
  match parseDecimal lonStr with
  | none => .error "invalid float for field Longitude"
  | some lon =>
  match getField r "Latitude" with
  | none => .error "missing field Latitude"
  | some latStr =>
  match parseDecimal latStr with
  | none => .error "invalid float for field Latitude"
  | some lat =>
  match getField r "Indicator" with
  | none => .error "missing field Indicator"
  | some ind => .ok ⟨atco, name, lon, lat, ind⟩

/-- serde decoding of a `NaPTANStopInArea`: both fields required. -/
def decodeStopInArea (r : RawRecord) : Except String NaPTANStopInArea :=
  match getField r "AtcoCode" with
  | none => .error "missing field AtcoCode"
  | some atco =>
  match getField r "StopAreaCode" with
  | none => .error "missing field StopAreaCode"
  | some area => .ok ⟨atco, area⟩

/-- serde decoding of a `NaPTANStopArea`: all four fields required. -/
def decodeStopArea (r : RawRecord) : Except String NaPTANStopArea :=
  match getField r "StopAreaCode" with
  | none => .error "missing field StopAreaCode"
  | some code =>
  match getField r "Name" with
  | none => .error "missing field Name"
  | some name =>
  match getField r "Easting" with
  | none => .error "missing field Easting"
  | some eStr =>
  match parseDecimal eStr with
  | none => .error "invalid float for field Easting"
  | some e =>
  match getField r "Northing" with
  | none => .error "missing field Northing"
  | some nStr =>
  match parseDecimal nStr with
  | none => .error "invalid float for field Northing"
  | some n => .ok ⟨code, name, e, n⟩

/-- `objects::StopArea`, restricted to the fields `naptan.rs` sets
(the remaining fields come from `Default::default()`). -/
structure StopArea where
  id : String
  name : String
  coord : Coord
  deriving DecidableEq, Repr

/-- `objects::StopPoint`, restricted to the fields `naptan.rs` sets. -/
structure StopPoint where
  id : String
  name : String
  coord : Coord
  stop_area_id : String
  platform_code : Option String
  deriving DecidableEq, Repr

/-- Modelled from the spec: `CollectionWithId::push` (the `collection`
module is not among the source files).  Per §4.3, insertion fails with a
duplicate-identifier error when the identifier is already present, and
otherwise appends, preserving insertion order. -/
def cwi_push {α : Type} (getId : α → String) (c : List α) (x : α) :
    Except String (List α) :=
  if getId x ∈ c.map getId then
    .error ("identifier " ++ getId x ++ " already exists")
  else
    .ok (c ++ [x])

/-- Modelled from the spec: `CollectionWithId::get` — lookup by identifier
(§4.3), returning the entity or `none`. -/
def cwi_get {α : Type} (getId : α → String) (c : List α) (id : String) :
    Option α :=
  c.find? (fun x => getId x == id)

/-- Modelled from the spec: `CollectionWithId::try_merge` — for every entity
of `other` in order, `push` into the destination; the first collision fails
the merge as a whole (§4.3). -/
def try_merge {α : Type} (getId : α → String) : List α → List α → Except String (List α)
  | c, [] => .ok c
  | c, x :: rest =>
    match cwi_push getId c x with
    | .error e => .error e
    | .ok c2 => try_merge getId c2 rest

/-- Lookup in the association-list model of `HashMap<String, String>`:
the most recently inserted pair for a key is found first. -/
def hmGet : List (String × String) → String → Option String
  | [], _ => none
  | (k, v) :: rest, key => if k = key then some v else hmGet rest key

/-- The loop of `read_stop_areas`: decode each record, project its planar
point through the converter, and push the resulting `StopArea`.  Every step
uses `?`, so the first decode, projection, or push error aborts the whole
read. -/
def read_stop_areas_go (convert : Point → Except String Point)
    (acc : List StopArea) : List RawRecord → Except String (List StopArea)
  | [] => .ok acc
  | r :: rest =>
    match decodeStopArea r with
    | .error e => .error ("Error parsing the CSV record into a StopArea: " ++ e)
    | .ok sa =>
      match convert (Point.mk sa.easting sa.northing) with
      | .error e => .error e
      | .ok p =>
        match cwi_push StopArea.id acc
            (StopArea.mk sa.stop_area_code sa.name (Coord.ofPoint p)) with
        | .error e => .error e
        | .ok acc2 => read_stop_areas_go convert acc2 rest

/-- `read_stop_areas` of `naptan.rs`, parametrised by the already-built
PROJ converter (whose construction failure, a configuration-level error,
happens before any record is read and is outside these claims). -/
def read_stop_areas (convert : Point → Except String Point)
    (records : List RawRecord) : Except String (List StopArea) :=
  read_stop_areas_go convert [] records

/-- The loop of `read_stops_in_area`: decode each record and insert the
(child, parent) pair into the map; a decode error aborts the read. -/
def read_stops_in_area_go (acc : List (String × String)) :
    List RawRecord → Except String (List (String × String))
  | [] => .ok acc
  | r :: rest =>
    match decodeStopInArea r with
    | .error e => .error ("Error parsing the CSV record into a StopInArea: " ++ e)
    | .ok sia => read_stops_in_area_go ((sia.atco_code, sia.stop_area_code) :: acc) rest

/-- `read_stops_in_area` of `naptan.rs`: collects the records into the
membership map, later records overwriting earlier ones for the same child. -/
def read_stops_in_area (records : List RawRecord) :
    Except String (List (String × String)) :=
  read_stops_in_area_go [] records

/-- The loop of `read_stops`: decode each record, resolve its stop area in
the membership map (a miss is a hard error naming the stop code), and push
the resulting `StopPoint`. -/
def read_stops_go (stops_in_area : List (String × String))
    (acc : List StopPoint) : List RawRecord → Except String (List StopPoint)
  | [] => .ok acc
  | r :: rest =>
    match decodeStop r with
    | .error e => .error ("Error parsing the CSV record into a Stop: " ++ e)
    | .ok stop =>
      match hmGet stops_in_area stop.atco_code with
      | none =>
          .error ("Failed to find the corresponding StopArea for the StopPoint "
            ++ stop.atco_code)
      | some stop_area_id =>
        match cwi_push StopPoint.id acc
            (StopPoint.mk stop.atco_code stop.name
              (Coord.mk stop.longitude stop.latitude)
              stop_area_id (some stop.indicator)) with
        | .error e => .error e
        | .ok acc2 => read_stops_go stops_in_area acc2 rest

/-- `read_stops` of `naptan.rs`. -/
def read_stops (stops_in_area : List (String × String))
    (records : List RawRecord) : Except String (List StopPoint) :=
  read_stops_go stops_in_area [] records

/-- `validate_stops` of `naptan.rs`: its body is `unimplemented!()`, a
panic that unconditionally stops `read_naptan` before the merge step; the
panic is modelled as an error value. -/
def validate_stops (_stop_areas : List StopArea) (_stop_points : List StopPoint) :
    Except String Unit :=
  .error "not implemented"

/-- A calendar exception date; the claims treat the date as an opaque
token, so the ISO text of the date stands for it. -/
abbrev Date := String

/-- `objects::ExceptionType` (Added | Removed), per the spec data model. -/
inductive ExceptionType where
  | Add
  | Remove
  deriving DecidableEq, Repr

/-- `objects::Calendar`, restricted to the fields `common_format.rs`
touches: the identifier and the exception sequence. -/
structure Calendar where
  id : String
  calendar_dates : List (Date × ExceptionType)
  deriving DecidableEq, Repr

/-- `CalendarDate` of `common_format.rs` (one decoded `calendar_dates.txt`
row). -/
structure CalendarDate where
  service_id : String
  date : Date
  exception_type : ExceptionType
  deriving DecidableEq, Repr

/-- `model::Collections`, restricted to the fields the two source files
touch. -/
structure Collections where
  stop_areas : List StopArea
  stop_points : List StopPoint
  calendars : List Calendar
  deriving DecidableEq, Repr

/-- `read_naptan` of `naptan.rs`, parametrised by the converter and by the
three archive entries (`none` models a missing entry, whose lookup fails).
The sequence mirrors the source: stop areas, then membership, then stops,
then `validate_stops`, then the two merges. -/
def read_naptan (convert : Point → Except String Point)
    (stopAreasFile stopsInAreaFile stopsFile : Option (List RawRecord))
    (collections : Collections) : Except String Collections :=
  match stopAreasFile with
  | none => .error "file not found: StopAreas.csv"
  | some saRecs =>
  match read_stop_areas convert saRecs with
  | .error e => .error e
  | .ok stop_areas =>
  match stopsInAreaFile with
  | none => .error "file not found: StopsInArea.csv"
  | some siaRecs =>
  match read_stops_in_area siaRecs with
  | .error e => .error e
  | .ok stops_in_area =>
  match stopsFile with
  | none => .error "file not found: Stops.csv"
  | some stRecs =>
  match read_stops stops_in_area stRecs with
  | .error e => .error e
  | .ok stop_points =>
  match validate_stops stop_areas stop_points with
  | .error e => .error e
  | .ok _ =>
  match try_merge StopArea.id collections.stop_areas stop_areas with
  | .error e => .error e
  | .ok sa2 =>
  match try_merge StopPoint.id collections.stop_points stop_points with
  | .error e => .error e
  | .ok sp2 => .ok { collections with stop_areas := sa2, stop_points := sp2 }

/-- Append an exception pair to the first calendar whose identifier matches
(the `get_idx`/`index_mut` pair of `insert_calendar_date`: `get_idx`
returns the index of the first entity with the identifier). -/
def push_exception (calendar_date : CalendarDate) :
    List Calendar → List Calendar
  | [] => []
  | c :: rest =>
    if c.id = calendar_date.service_id then
      { c with calendar_dates :=
          c.calendar_dates ++ [(calendar_date.date, calendar_date.exception_type)] } :: rest
    else
      c :: push_exception calendar_date rest

/-- `insert_calendar_date` of `common_format.rs`: resolve the service_id in
the calendar collection; when absent, log and return, leaving every
calendar unchanged (soft failure); when present, append the (date,
exception_type) pair to that calendar's exception sequence. -/
def insert_calendar_date (collection : List Calendar)
    (calendar_date : CalendarDate) : List Calendar :=
  if collection.any (fun c => c.id == calendar_date.service_id) then
    push_exception calendar_date collection
  else
    collection

/-- The loop of `manage_calendars` over the rows of `calendar_dates.txt`:
each row decodes or is a decode error; a decode error returns immediately
(leaving the already-inserted exceptions in place), a decoded row is handed
to `insert_calendar_date`. -/
def process_calendar_dates (cals : List Calendar) :
    List (Except String CalendarDate) → List Calendar × Except String Unit
  | [] => (cals, .ok ())
  | .error e :: _ => (cals, .error e)
  | .ok cd :: rest => process_calendar_dates (insert_calendar_date cals cd) rest

/-- `manage_calendars` of `common_format.rs`, parametrised by the result of
reading `calendar.txt` (an `Except`, since `make_collection_with_id` can
fail) and by `calendar_dates.txt` (`none` models a file that cannot be
opened — skipped, not an error; rows are decoded records or decode
errors).  The destination `collections` is threaded through explicitly,
since in the source it is a mutable borrow that keeps its partial updates
when an error is returned. -/
def manage_calendars (collections : Collections)
    (calendarFile : Except String (List Calendar))
    (calendarDatesFile : Option (List (Except String CalendarDate))) :
    Collections × Except String Unit :=
  match calendarFile with
  | .error e => (collections, .error e)
  | .ok cals =>
    let collections2 := { collections with calendars := cals }
    match calendarDatesFile with
    | none => (collections2, .ok ())
    | some rows =>
      let (cals2, res) := process_calendar_dates cals rows
      ({ collections2 with calendars := cals2 }, res)

/-- Decode a whole stop-area file, as the `deserialize()` iterator would
row by row; the first decode error is the overall error. -/
def decodeAllStopAreas : List RawRecord → Except String (List NaPTANStopArea)
  | [] => .ok []
  | r :: rest =>
    match decodeStopArea r with
    | .error e => .error e
    | .ok sa =>
      match decodeAllStopAreas rest with
      | .error e => .error e
      | .ok rest2 => .ok (sa :: rest2)

/-- Decode a whole stop file, row by row. -/
def decodeAllStops : List RawRecord → Except String (List NaPTANStop)
  | [] => .ok []
  | r :: rest =>
    match decodeStop r with
    | .error e => .error e
    | .ok st =>
      match decodeAllStops rest with
      | .error e => .error e
      | .ok rest2 => .ok (st :: rest2)

/-- Decode a whole membership file, row by row. -/
def decodeAllStopsInArea : List RawRecord → Except String (List NaPTANStopInArea)
  | [] => .ok []
  | r :: rest =>
    match decodeStopInArea r with
    | .error e => .error e
    | .ok sia =>
      match decodeAllStopsInArea rest with
      | .error e => .error e
      | .ok rest2 => .ok (sia :: rest2)

/-- The parent area of the last membership row for a given child stop code
("last write wins"): later rows take precedence over earlier ones. -/
def lastMatch : List NaPTANStopInArea → String → Option String
  | [], _ => none
  | s :: rest, key =>
    match lastMatch rest key with
    | some v => some v
    | none => if s.atco_code = key then some s.stop_area_code else none

/-- The expected effect of a run of valid `calendar_dates.txt` rows on a
calendar collection with distinct identifiers: each service receives, in
source row order, exactly the exception pairs of the rows that reference
it; rows referencing no service contribute nothing. -/
def apply_calendar_dates (cals : List Calendar) (rows : List CalendarDate) :
    List Calendar :=
  cals.map (fun c =>
    { c with calendar_dates :=
        (c.calendar_dates ++
          (rows.filter (fun cd => cd.service_id == c.id)).map
            (fun cd => (cd.date, cd.exception_type))) })

/-! ## Lemmas about the calendar subsystem -/

theorem push_exception_no_match (cd : CalendarDate) (cals : List Calendar)
    (h : ∀ c ∈ cals, c.id ≠ cd.service_id) :
    push_exception cd cals = cals := by
  induction cals with
  | nil => rfl
  | cons c rest ih =>
    simp only [push_exception]
    rw [if_neg (h c (List.mem_cons_self c rest))]
    rw [ih (fun x hx => h x (List.mem_cons_of_mem c hx))]

theorem push_exception_map (cd : CalendarDate) (cals : List Calendar)
    (h : (cals.map Calendar.id).Nodup) :
    push_exception cd cals = cals.map (fun c =>
      if c.id = cd.service_id then
        { c with calendar_dates :=
            c.calendar_dates ++ [(cd.date, cd.exception_type)] }
      else c) := by
  induction cals with
  | nil => rfl
  | cons c rest ih =>
    simp only [List.map_cons, List.nodup_cons] at h
    by_cases hc : c.id = cd.service_id
    · simp only [push_exception, if_pos hc, List.map_cons]
      congr 1
      refine Eq.symm ((List.map_congr_left ?_).trans (List.map_id rest))
      intro x hx
      have hxid : x.id ≠ cd.service_id := by
        intro hcontra
        exact h.1 (by rw [hc, ← hcontra]; exact List.mem_map_of_mem Calendar.id hx)
      rw [if_neg hxid]
      rfl
    · simp only [push_exception, if_neg hc, List.map_cons]
      rw [ih h.2]

theorem insert_calendar_date_map (cals : List Calendar) (cd : CalendarDate)
    (h : (cals.map Calendar.id).Nodup) :
    insert_calendar_date cals cd = cals.map (fun c =>
      if c.id = cd.service_id then
        { c with calendar_dates :=
            c.calendar_dates ++ [(cd.date, cd.exception_type)] }
      else c) := by
  unfold insert_calendar_date
  by_cases hany : cals.any (fun c => c.id == cd.service_id)
  · rw [if_pos hany]
    exact push_exception_map cd cals h
  · rw [if_neg hany]
    have hno : ∀ c ∈ cals, ¬(c.id = cd.service_id) := by
      intro c hc hcontra
      apply hany
      rw [List.any_eq_true]
      exact ⟨c, hc, beq_iff_eq.mpr hcontra⟩
    refine Eq.symm ((List.map_congr_left ?_).trans (List.map_id cals))
    intro x hx
    rw [if_neg (hno x hx)]
    rfl

theorem push_exception_ids (cd : CalendarDate) (cals : List Calendar) :
    (push_exception cd cals).map Calendar.id = cals.map Calendar.id := by
  induction cals with
  | nil => rfl
  | cons c rest ih =>
    by_cases hc : c.id = cd.service_id
    · simp only [push_exception, if_pos hc, List.map_cons]
    · simp only [push_exception, if_neg hc, List.map_cons, List.cons.injEq]
      exact ⟨trivial, ih⟩

theorem insert_calendar_date_preserves_ids (cals : List Calendar)
    (cd : CalendarDate) :
    (insert_calendar_date cals cd).map Calendar.id = cals.map Calendar.id := by
  unfold insert_calendar_date
  by_cases hany : cals.any (fun c => c.id == cd.service_id)
  · rw [if_pos hany]
    exact push_exception_ids cd cals
  · rw [if_neg hany]

theorem apply_calendar_dates_nil (cals : List Calendar) :
    apply_calendar_dates cals [] = cals := by
  unfold apply_calendar_dates
  refine (List.map_congr_left ?_).trans (List.map_id cals)
  intro x _
  simp

theorem apply_calendar_dates_cons (cals : List Calendar) (cd : CalendarDate)
    (rows : List CalendarDate) (h : (cals.map Calendar.id).Nodup) :
    apply_calendar_dates (insert_calendar_date cals cd) rows =
      apply_calendar_dates cals (cd :: rows) := by
  rw [insert_calendar_date_map cals cd h]
  unfold apply_calendar_dates
  rw [List.map_map]
  apply List.map_congr_left
  intro x _
  by_cases hx : x.id = cd.service_id
  · simp only [Function.comp, if_pos hx]
    simp [List.filter_cons, hx.symm, List.append_assoc]
  · simp only [Function.comp, if_neg hx]
    have hbeq : (cd.service_id == x.id) = false := by
      simp only [beq_eq_false_iff_ne, ne_eq]
      exact fun hcontra => hx hcontra.symm
    simp [List.filter_cons, hbeq]

theorem process_calendar_dates_append_ok (rows : List CalendarDate) :
    ∀ (tail : List (Except String CalendarDate)) (cals : List Calendar),
      (cals.map Calendar.id).Nodup →
      process_calendar_dates cals (rows.map Except.ok ++ tail) =
        process_calendar_dates (apply_calendar_dates cals rows) tail := by
  induction rows with
  | nil =>
    intro tail cals _
    rw [apply_calendar_dates_nil]
    rfl
  | cons cd rest ih =>
    intro tail cals h
    simp only [List.map_cons, List.cons_append, process_calendar_dates, List.append_eq]
    rw [ih tail (insert_calendar_date cals cd)
      (by rw [insert_calendar_date_preserves_ids]; exact h)]
    rw [apply_calendar_dates_cons cals cd rest h]

/-! ## Claim C5 -/

/-- Claim C5: for every calendar-exception row whose service_id is not
present in the calendar collection, processing drops that row without
aborting the run and without modifying any calendar service; every
service's exception sequence equals exactly the (date, exception_type)
pairs appended from the valid rows that reference it, in source row
order. -/
theorem calendar_exception_rows_soft_skip (cals : List Calendar)
    (h : (cals.map Calendar.id).Nodup) :
    (∀ rows : List CalendarDate,
      process_calendar_dates cals (rows.map Except.ok) =
        (apply_calendar_dates cals rows, Except.ok ())) ∧
    (∀ (pre post : List CalendarDate) (cd : CalendarDate),
      cd.service_id ∉ cals.map Calendar.id →
      process_calendar_dates cals ((pre ++ cd :: post).map Except.ok) =
        process_calendar_dates cals ((pre ++ post).map Except.ok)) := by
  have hmain : ∀ rows : List CalendarDate,
      process_calendar_dates cals (rows.map Except.ok) =
        (apply_calendar_dates cals rows, Except.ok ()) := by
    intro rows
    have hcat := process_calendar_dates_append_ok rows [] cals h
    rw [List.append_nil] at hcat
    rw [hcat]
    rfl
  refine ⟨hmain, ?_⟩
  intro pre post cd hcd
  rw [hmain, hmain]
  have happ : apply_calendar_dates cals (pre ++ cd :: post) =
      apply_calendar_dates cals (pre ++ post) := by
    unfold apply_calendar_dates
    apply List.map_congr_left
    intro c hc
    have hne : (cd.service_id == c.id) = false := by
      simp only [beq_eq_false_iff_ne, ne_eq]
      intro hcontra
      exact hcd (by rw [hcontra]; exact List.mem_map_of_mem Calendar.id hc)
    simp [List.filter_append, List.filter_cons, hne]
  rw [happ]

theorem calendar_exception_rows_soft_skip_witness :
    ((([⟨"S1", [("2020-01-01", ExceptionType.Add)]⟩] : List Calendar).map
        Calendar.id).Nodup) ∧
    process_calendar_dates [⟨"S1", [("2020-01-01", ExceptionType.Add)]⟩]
        ([⟨"S2", "2020-02-02", ExceptionType.Remove⟩,
          ⟨"S1", "2020-03-03", ExceptionType.Add⟩].map Except.ok) =
      (apply_calendar_dates [⟨"S1", [("2020-01-01", ExceptionType.Add)]⟩]
          [⟨"S2", "2020-02-02", ExceptionType.Remove⟩,
            ⟨"S1", "2020-03-03", ExceptionType.Add⟩], Except.ok ()) ∧
    apply_calendar_dates [⟨"S1", [("2020-01-01", ExceptionType.Add)]⟩]
        [⟨"S2", "2020-02-02", ExceptionType.Remove⟩,
          ⟨"S1", "2020-03-03", ExceptionType.Add⟩] =
      [⟨"S1", [("2020-01-01", ExceptionType.Add),
          ("2020-03-03", ExceptionType.Add)]⟩] :=
  ⟨by decide,
    (calendar_exception_rows_soft_skip _ (by decide)).1 _,
    by decide⟩

/-! ## Claim C10 -/

/-- Claim C10: manage_calendars is not atomic on error: if a
calendar_dates.txt row fails to decode after earlier rows were processed,
the function returns the error, but the destination's calendars field
already holds the newly loaded base calendar collection with every
exception pair appended by the earlier valid rows. -/
theorem manage_calendars_partial_on_error (collections : Collections)
    (cals : List Calendar) (good : List CalendarDate) (e : String)
    (tail : List (Except String CalendarDate))
    (h : (cals.map Calendar.id).Nodup) :
    manage_calendars collections (Except.ok cals)
        (some (good.map Except.ok ++ Except.error e :: tail)) =
      ({ collections with calendars := apply_calendar_dates cals good },
        Except.error e) := by
  have hp : process_calendar_dates cals
      (good.map Except.ok ++ Except.error e :: tail) =
      (apply_calendar_dates cals good, Except.error e) := by
    rw [process_calendar_dates_append_ok good (Except.error e :: tail) cals h]
    rfl
  simp [manage_calendars, hp]

theorem manage_calendars_partial_on_error_witness :
    ((([⟨"S1", []⟩] : List Calendar).map Calendar.id).Nodup) ∧
    manage_calendars ⟨[], [], []⟩ (Except.ok [⟨"S1", []⟩])
        (some ([⟨"S1", "2020-01-01", ExceptionType.Add⟩].map Except.ok ++
          Except.error "bad row" :: [])) =
      (⟨[], [], apply_calendar_dates [⟨"S1", []⟩]
          [⟨"S1", "2020-01-01", ExceptionType.Add⟩]⟩,
        Except.error "bad row") ∧
    apply_calendar_dates [⟨"S1", []⟩] [⟨"S1", "2020-01-01", ExceptionType.Add⟩] =
      [⟨"S1", [("2020-01-01", ExceptionType.Add)]⟩] :=
  ⟨by decide,
    manage_calendars_partial_on_error ⟨[], [], []⟩ [⟨"S1", []⟩]
      [⟨"S1", "2020-01-01", ExceptionType.Add⟩] "bad row" [] (by decide),
    by decide⟩

/-! ## Lemmas about the NaPTAN readers -/

theorem decodeAllStopAreas_length (records : List RawRecord) :
    ∀ sas : List NaPTANStopArea,
      decodeAllStopAreas records = Except.ok sas → sas.length = records.length := by
  induction records with
  | nil =>
    intro sas hdec
    injection hdec with h
    subst h
    rfl
  | cons r rest ih =>
    intro sas hdec
    simp only [decodeAllStopAreas] at hdec
    cases hd : decodeStopArea r with
    | error e =>
      simp only [hd] at hdec
      exact Except.noConfusion hdec
    | ok sa =>
      simp only [hd] at hdec
      cases hrest : decodeAllStopAreas rest with
      | error e =>
        simp only [hrest] at hdec
        exact Except.noConfusion hdec
      | ok sas2 =>
        simp only [hrest] at hdec
        injection hdec with h
        subst h
        simp [ih sas2 hrest]

theorem read_stop_areas_go_append (convert : Point → Except String Point)
    (pre : List RawRecord) :
    ∀ (rest : List RawRecord) (acc acc2 : List StopArea),
      read_stop_areas_go convert acc pre = Except.ok acc2 →
      read_stop_areas_go convert acc (pre ++ rest) =
        read_stop_areas_go convert acc2 rest := by
  induction pre with
  | nil =>
    intro rest acc acc2 hpre
    injection hpre with h
    subst h
    rfl
  | cons r pre ih =>
    intro rest acc acc2 hpre
    simp only [read_stop_areas_go] at hpre
    simp only [List.cons_append, read_stop_areas_go]
    cases hd : decodeStopArea r with
    | error e =>
      simp only [hd] at hpre
      exact Except.noConfusion hpre
    | ok sa =>
      simp only [hd] at hpre ⊢
      cases hc : convert (Point.mk sa.easting sa.northing) with
      | error e =>
        simp only [hc] at hpre
        exact Except.noConfusion hpre
      | ok p =>
        simp only [hc] at hpre ⊢
        cases hp : cwi_push StopArea.id acc
            (StopArea.mk sa.stop_area_code sa.name (Coord.ofPoint p)) with
        | error e =>
          simp only [hp] at hpre
          exact Except.noConfusion hpre
        | ok acc3 =>
          simp only [hp] at hpre ⊢
          exact ih rest acc3 acc2 hpre

theorem read_stops_go_append (m : List (String × String))
    (pre : List RawRecord) :
    ∀ (rest : List RawRecord) (acc acc2 : List StopPoint),
      read_stops_go m acc pre = Except.ok acc2 →
      read_stops_go m acc (pre ++ rest) = read_stops_go m acc2 rest := by
  induction pre with
  | nil =>
    intro rest acc acc2 hpre
    injection hpre with h
    subst h
    rfl
  | cons r pre ih =>
    intro rest acc acc2 hpre
    simp only [read_stops_go] at hpre
    simp only [List.cons_append, read_stops_go]
    cases hd : decodeStop r with
    | error e =>
      simp only [hd] at hpre
      exact Except.noConfusion hpre
    | ok st =>
      simp only [hd] at hpre ⊢
      cases hg : hmGet m st.atco_code with
      | none =>
        simp only [hg] at hpre
        exact Except.noConfusion hpre
      | some said =>
        simp only [hg] at hpre ⊢
        cases hp : cwi_push StopPoint.id acc
            (StopPoint.mk st.atco_code st.name
              (Coord.mk st.longitude st.latitude) said (some st.indicator)) with
        | error e =>
          simp only [hp] at hpre
          exact Except.noConfusion hpre
        | ok acc3 =>
          simp only [hp] at hpre ⊢
          exact ih rest acc3 acc2 hpre

theorem read_stop_areas_go_ok_inv (convert : Point → Except String Point) :
    ∀ (records : List RawRecord) (sas : List NaPTANStopArea)
      (acc out : List StopArea),
      read_stop_areas_go convert acc records = Except.ok out →
      decodeAllStopAreas records = Except.ok sas →
      (∀ sa ∈ sas, sa.stop_area_code ∉ acc.map StopArea.id) ∧
        (sas.map (fun sa => sa.stop_area_code)).Nodup := by
  intro records
  induction records with
  | nil =>
    intro sas acc out _ hdec
    injection hdec with h
    subst h
    exact ⟨by simp, List.nodup_nil⟩
  | cons r rest ih =>
    intro sas acc out hgo hdec
    simp only [read_stop_areas_go] at hgo
    simp only [decodeAllStopAreas] at hdec
    cases hd : decodeStopArea r with
    | error e =>
      simp only [hd] at hdec
      exact Except.noConfusion hdec
    | ok sa =>
      simp only [hd] at hgo hdec
      cases hrest : decodeAllStopAreas rest with
      | error e =>
        simp only [hrest] at hdec
        exact Except.noConfusion hdec
      | ok sas2 =>
        simp only [hrest] at hdec
        injection hdec with h
        subst h
        cases hc : convert (Point.mk sa.easting sa.northing) with
        | error e =>
          simp only [hc] at hgo
          exact Except.noConfusion hgo
        | ok p =>
          simp only [hc] at hgo
          cases hp : cwi_push StopArea.id acc
              (StopArea.mk sa.stop_area_code sa.name (Coord.ofPoint p)) with
          | error e =>
            simp only [hp] at hgo
            exact Except.noConfusion hgo
          | ok acc3 =>
            simp only [hp] at hgo
            unfold cwi_push at hp
            by_cases hmem : sa.stop_area_code ∈ acc.map StopArea.id
            · rw [if_pos hmem] at hp
              exact Except.noConfusion hp
            · rw [if_neg hmem] at hp
              injection hp with hacc3
              obtain ⟨hnotin, hnodup⟩ := ih sas2 acc3 out hgo hrest
              subst hacc3
              constructor
              · intro x hx
                rcases List.mem_cons.mp hx with hx | hx
                · subst hx
                  exact hmem
                · intro hin
                  exact hnotin x hx (by
                    rw [List.map_append]
                    exact List.mem_append_left _ hin)
              · refine List.nodup_cons.mpr ⟨?_, hnodup⟩
                intro hin
                obtain ⟨x, hxmem, hxeq⟩ := List.mem_map.mp hin
                apply hnotin x hxmem
                rw [List.map_append]
                refine List.mem_append_right _ ?_
                simp [hxeq]

theorem read_stops_go_ok_inv (m : List (String × String)) :
    ∀ (records : List RawRecord) (stops : List NaPTANStop)
      (acc out : List StopPoint),
      read_stops_go m acc records = Except.ok out →
      decodeAllStops records = Except.ok stops →
      (∀ st ∈ stops, (∃ v, hmGet m st.atco_code = some v) ∧
          st.atco_code ∉ acc.map StopPoint.id) ∧
        (stops.map (fun st => st.atco_code)).Nodup := by
  intro records
  induction records with
  | nil =>
    intro stops acc out _ hdec
    injection hdec with h
    subst h
    exact ⟨by simp, List.nodup_nil⟩
  | cons r rest ih =>
    intro stops acc out hgo hdec
    simp only [read_stops_go] at hgo
    simp only [decodeAllStops] at hdec
    cases hd : decodeStop r with
    | error e =>
      simp only [hd] at hdec
      exact Except.noConfusion hdec
    | ok st =>
      simp only [hd] at hgo hdec
      cases hrest : decodeAllStops rest with
      | error e =>
        simp only [hrest] at hdec
        exact Except.noConfusion hdec
      | ok stops2 =>
        simp only [hrest] at hdec
        injection hdec with h
        subst h
        cases hg : hmGet m st.atco_code with
        | none =>
          simp only [hg] at hgo
          exact Except.noConfusion hgo
        | some said =>
          simp only [hg] at hgo
          cases hp : cwi_push StopPoint.id acc
              (StopPoint.mk st.atco_code st.name
                (Coord.mk st.longitude st.latitude) said (some st.indicator)) with
          | error e =>
            simp only [hp] at hgo
            exact Except.noConfusion hgo
          | ok acc3 =>
            simp only [hp] at hgo
            unfold cwi_push at hp
            by_cases hmem : st.atco_code ∈ acc.map StopPoint.id
            · rw [if_pos hmem] at hp
              exact Except.noConfusion hp
            · rw [if_neg hmem] at hp
              injection hp with hacc3
              obtain ⟨hnotin, hnodup⟩ := ih stops2 acc3 out hgo hrest
              subst hacc3
              constructor
              · intro x hx
                rcases List.mem_cons.mp hx with hx | hx
                · subst hx
                  exact ⟨⟨said, hg⟩, hmem⟩
                · refine ⟨(hnotin x hx).1, ?_⟩
                  intro hin
                  exact (hnotin x hx).2 (by
                    rw [List.map_append]
                    exact List.mem_append_left _ hin)
              · refine List.nodup_cons.mpr ⟨?_, hnodup⟩
                intro hin
                obtain ⟨x, hxmem, hxeq⟩ := List.mem_map.mp hin
                apply (hnotin x hxmem).2
                rw [List.map_append]
                refine List.mem_append_right _ ?_
                simp [hxeq]

theorem read_stop_areas_go_spec (convert : Point → Except String Point)
    (f : NaPTANStopArea → Point) :
    ∀ (records : List RawRecord) (sas : List NaPTANStopArea)
      (acc : List StopArea),
      decodeAllStopAreas records = Except.ok sas →
      (∀ sa ∈ sas, convert (Point.mk sa.easting sa.northing) = Except.ok (f sa)) →
      (acc.map StopArea.id ++ sas.map (fun sa => sa.stop_area_code)).Nodup →
      read_stop_areas_go convert acc records =
        Except.ok (acc ++ sas.map (fun sa =>
          StopArea.mk sa.stop_area_code sa.name (Coord.ofPoint (f sa)))) := by
  intro records
  induction records with
  | nil =>
    intro sas acc hdec _ _
    injection hdec with h
    subst h
    simp [read_stop_areas_go]
  | cons r rest ih =>
    intro sas acc hdec hconv hnodup
    simp only [decodeAllStopAreas] at hdec
    cases hd : decodeStopArea r with
    | error e =>
      simp only [hd] at hdec
      exact Except.noConfusion hdec
    | ok sa =>
      simp only [hd] at hdec
      cases hrest : decodeAllStopAreas rest with
      | error e =>
        simp only [hrest] at hdec
        exact Except.noConfusion hdec
      | ok sas2 =>
        simp only [hrest] at hdec
        injection hdec with h
        subst h
        simp only [List.map_cons] at hnodup
        have hmem : sa.stop_area_code ∉ acc.map StopArea.id := by
          intro hin
          obtain ⟨-, -, hdisj⟩ := List.nodup_append.mp hnodup
          exact hdisj hin (List.mem_cons_self _ _)
        simp only [read_stop_areas_go, hd,
          hconv sa (List.mem_cons_self sa sas2), cwi_push]
        rw [if_neg hmem]
        have hih := ih sas2
          (acc ++ [StopArea.mk sa.stop_area_code sa.name (Coord.ofPoint (f sa))])
          hrest
          (fun x hx => hconv x (List.mem_cons_of_mem sa hx))
          (by simpa using hnodup)
        exact hih.trans (congrArg Except.ok (by simp))

theorem hmGet_append (a b : List (String × String)) (key : String) :
    hmGet (a ++ b) key =
      match hmGet a key with
      | some v => some v
      | none => hmGet b key := by
  induction a with
  | nil => rfl
  | cons p rest ih =>
    obtain ⟨k, v⟩ := p
    by_cases hk : k = key
    · simp [hmGet, hk]
    · simp [hmGet, hk, ih]

theorem read_stops_in_area_go_spec :
    ∀ (records : List RawRecord) (sias : List NaPTANStopInArea)
      (acc : List (String × String)),
      decodeAllStopsInArea records = Except.ok sias →
      read_stops_in_area_go acc records =
        Except.ok ((sias.map (fun s =>
          (s.atco_code, s.stop_area_code))).reverse ++ acc) := by
  intro records
  induction records with
  | nil =>
    intro sias acc hdec
    injection hdec with h
    subst h
    simp [read_stops_in_area_go]
  | cons r rest ih =>
    intro sias acc hdec
    simp only [decodeAllStopsInArea] at hdec
    cases hd : decodeStopInArea r with
    | error e =>
      simp only [hd] at hdec
      exact Except.noConfusion hdec
    | ok sia =>
      simp only [hd] at hdec
      cases hrest : decodeAllStopsInArea rest with
      | error e =>
        simp only [hrest] at hdec
        exact Except.noConfusion hdec
      | ok sias2 =>
        simp only [hrest] at hdec
        injection hdec with h
        subst h
        simp only [read_stops_in_area_go, hd]
        rw [ih sias2 ((sia.atco_code, sia.stop_area_code) :: acc) hrest]
        simp [List.append_assoc]

theorem hmGet_reverse_lastMatch (sias : List NaPTANStopInArea) :
    ∀ key : String,
      hmGet ((sias.map (fun s => (s.atco_code, s.stop_area_code))).reverse) key =
        lastMatch sias key := by
  induction sias with
  | nil => intro key; rfl
  | cons s rest ih =>
    intro key
    simp only [List.map_cons, List.reverse_cons]
    rw [hmGet_append]
    rw [ih key]
    simp only [lastMatch]
    cases lastMatch rest key with
    | some v => rfl
    | none =>
      by_cases hk : s.atco_code = key
      · simp [hmGet, hk]
      · simp [hmGet, hk]

/-! ## Claim C1 -/

/-- Claim C1 is contradicted by the code: on an input archive whose
stop-area, membership, and stop files decode, project, resolve, and insert
without error (steps 2-4 succeed, as the first three conjuncts show), the
structural validation pass of step 5 still rejects the data:
`validate_stops` is `unimplemented!()` (a panic), so `read_naptan` never
reaches the merge step and never returns success. -/
theorem read_naptan_never_merges :
    read_stop_areas (fun p => Except.ok p)
        [[("StopAreaCode", "010G0001"), ("Name", "Bristol Bus Station"),
            ("Easting", "358929"), ("Northing", "173523")],
          [("StopAreaCode", "010G0002"), ("Name", "Temple Meads"),
            ("Easting", "359657"), ("Northing", "172418")]] =
      Except.ok
        [⟨"010G0001", "Bristol Bus Station", ⟨mkRat 358929 1, mkRat 173523 1⟩⟩,
          ⟨"010G0002", "Temple Meads", ⟨mkRat 359657 1, mkRat 172418 1⟩⟩] ∧
    read_stops_in_area
        [[("AtcoCode", "01000053220"), ("StopAreaCode", "010G0001")]] =
      Except.ok [("01000053220", "010G0001")] ∧
    read_stops [("01000053220", "010G0001")]
        [[("ATCOCode", "01000053220"), ("CommonName", "Broad Walk Shops"),
            ("Indicator", "Stop B"), ("Longitude", "-2.5"), ("Latitude", "51.25")]] =
      Except.ok [⟨"01000053220", "Broad Walk Shops",
        ⟨-(mkRat 25 10), mkRat 5125 100⟩, "010G0001", some "Stop B"⟩] ∧
    read_naptan (fun p => Except.ok p)
        (some [[("StopAreaCode", "010G0001"), ("Name", "Bristol Bus Station"),
            ("Easting", "358929"), ("Northing", "173523")],
          [("StopAreaCode", "010G0002"), ("Name", "Temple Meads"),
            ("Easting", "359657"), ("Northing", "172418")]])
        (some [[("AtcoCode", "01000053220"), ("StopAreaCode", "010G0001")]])
        (some [[("ATCOCode", "01000053220"), ("CommonName", "Broad Walk Shops"),
            ("Indicator", "Stop B"), ("Longitude", "-2.5"), ("Latitude", "51.25")]])
        ⟨[], [], []⟩ =
      Except.error "not implemented" :=
  ⟨by decide, by decide, by decide, by decide⟩

/-! ## Claim C2 -/

/-- Claim C2 is false on the code: in this stop-area input the first
record's planar coordinate converts successfully (first conjunct), yet a
projection failure on the second record aborts the whole read with that
error (second conjunct), instead of failing only that record. -/
theorem read_stop_areas_projection_abort_counterexample :
    read_stop_areas
        (fun p => if p.x = mkRat 358929 1 then Except.ok p
          else Except.error "coordinate outside projection domain")
        [[("StopAreaCode", "010G0001"), ("Name", "Bristol Bus Station"),
            ("Easting", "358929"), ("Northing", "173523")]] =
      Except.ok
        [⟨"010G0001", "Bristol Bus Station", ⟨mkRat 358929 1, mkRat 173523 1⟩⟩] ∧
    read_stop_areas
        (fun p => if p.x = mkRat 358929 1 then Except.ok p
          else Except.error "coordinate outside projection domain")
        [[("StopAreaCode", "010G0001"), ("Name", "Bristol Bus Station"),
            ("Easting", "358929"), ("Northing", "173523")],
          [("StopAreaCode", "010G0002"), ("Name", "Temple Meads"),
            ("Easting", "359657"), ("Northing", "172418")]] =
      Except.error "coordinate outside projection domain" :=
  ⟨by decide, by decide⟩

/-- Claim C2 (amended): a per-record projection failure aborts the whole
`read_stop_areas` run immediately with that record's error, even when
other records (here, the whole prefix) convert successfully. -/
theorem read_stop_areas_projection_aborts (convert : Point → Except String Point)
    (pre rest : List RawRecord) (r : RawRecord) (acc : List StopArea)
    (sa : NaPTANStopArea) (e : String)
    (hpre : read_stop_areas_go convert [] pre = Except.ok acc)
    (hdec : decodeStopArea r = Except.ok sa)
    (hconv : convert (Point.mk sa.easting sa.northing) = Except.error e) :
    read_stop_areas convert (pre ++ r :: rest) = Except.error e := by
  unfold read_stop_areas
  rw [read_stop_areas_go_append convert pre (r :: rest) [] acc hpre]
  simp only [read_stop_areas_go, hdec, hconv]

theorem read_stop_areas_projection_aborts_witness :
    read_stop_areas_go
        (fun p => if p.x = mkRat 358929 1 then Except.ok p
          else Except.error "coordinate outside projection domain")
        []
        [[("StopAreaCode", "010G0001"), ("Name", "Bristol Bus Station"),
            ("Easting", "358929"), ("Northing", "173523")]] =
      Except.ok
        [⟨"010G0001", "Bristol Bus Station", ⟨mkRat 358929 1, mkRat 173523 1⟩⟩] ∧
    read_stop_areas
        (fun p => if p.x = mkRat 358929 1 then Except.ok p
          else Except.error "coordinate outside projection domain")
        ([[("StopAreaCode", "010G0001"), ("Name", "Bristol Bus Station"),
            ("Easting", "358929"), ("Northing", "173523")]] ++
          [("StopAreaCode", "010G0002"), ("Name", "Temple Meads"),
            ("Easting", "359657"), ("Northing", "172418")] :: []) =
      Except.error "coordinate outside projection domain" :=
  ⟨by decide,
    read_stop_areas_projection_aborts _ _ []
      [("StopAreaCode", "010G0002"), ("Name", "Temple Meads"),
        ("Easting", "359657"), ("Northing", "172418")]
      [⟨"010G0001", "Bristol Bus Station", ⟨mkRat 358929 1, mkRat 173523 1⟩⟩]
      ⟨"010G0002", "Temple Meads", mkRat 359657 1, mkRat 172418 1⟩
      "coordinate outside projection domain"
      (by decide) (by decide) (by decide)⟩

/-! ## Claim C3 -/

/-- Claim C3: for every sequence of stop-area rows that decode, with
pairwise distinct area codes and in-domain coordinates (the converter
succeeds on each, with value given by `f`), `read_stop_areas` returns the
collection with one entity per row, in order, whose coordinate is the
geographic projection of that row's planar easting/northing; in
particular its size equals the row count. -/
theorem read_stop_areas_functional (convert : Point → Except String Point)
    (f : NaPTANStopArea → Point) (records : List RawRecord)
    (sas : List NaPTANStopArea)
    (hdec : decodeAllStopAreas records = Except.ok sas)
    (hconv : ∀ sa ∈ sas, convert (Point.mk sa.easting sa.northing) = Except.ok (f sa))
    (hnodup : (sas.map (fun sa => sa.stop_area_code)).Nodup) :
    read_stop_areas convert records =
      Except.ok (sas.map (fun sa =>
        StopArea.mk sa.stop_area_code sa.name (Coord.ofPoint (f sa)))) ∧
    (sas.map (fun sa =>
      StopArea.mk sa.stop_area_code sa.name (Coord.ofPoint (f sa)))).length =
      records.length := by
  constructor
  · unfold read_stop_areas
    have h := read_stop_areas_go_spec convert f records sas [] hdec hconv
      (by simpa using hnodup)
    simpa using h
  · simpa using decodeAllStopAreas_length records sas hdec

theorem read_stop_areas_functional_witness :
    decodeAllStopAreas
        [[("StopAreaCode", "010G0001"), ("Name", "Bristol Bus Station"),
            ("Easting", "358929"), ("Northing", "173523")],
          [("StopAreaCode", "010G0002"), ("Name", "Temple Meads"),
            ("Easting", "359657"), ("Northing", "172418")]] =
      Except.ok [⟨"010G0001", "Bristol Bus Station", mkRat 358929 1, mkRat 173523 1⟩,
        ⟨"010G0002", "Temple Meads", mkRat 359657 1, mkRat 172418 1⟩] ∧
    read_stop_areas (fun p => Except.ok (Point.mk p.y p.x))
        [[("StopAreaCode", "010G0001"), ("Name", "Bristol Bus Station"),
            ("Easting", "358929"), ("Northing", "173523")],
          [("StopAreaCode", "010G0002"), ("Name", "Temple Meads"),
            ("Easting", "359657"), ("Northing", "172418")]] =
      Except.ok
        (([⟨"010G0001", "Bristol Bus Station", mkRat 358929 1, mkRat 173523 1⟩,
            ⟨"010G0002", "Temple Meads", mkRat 359657 1, mkRat 172418 1⟩] :
          List NaPTANStopArea).map (fun sa =>
            StopArea.mk sa.stop_area_code sa.name
              (Coord.ofPoint (Point.mk sa.northing sa.easting)))) ∧
    (cwi_get StopArea.id
        [StopArea.mk "010G0001" "Bristol Bus Station" ⟨mkRat 173523 1, mkRat 358929 1⟩,
          StopArea.mk "010G0002" "Temple Meads" ⟨mkRat 172418 1, mkRat 359657 1⟩]
        "010G0001").map StopArea.name = some "Bristol Bus Station" ∧
    ([StopArea.mk "010G0001" "Bristol Bus Station" ⟨mkRat 173523 1, mkRat 358929 1⟩,
      StopArea.mk "010G0002" "Temple Meads" ⟨mkRat 172418 1, mkRat 359657 1⟩] :
      List StopArea).length = 2 :=
  ⟨by decide,
    (read_stop_areas_functional (fun p => Except.ok (Point.mk p.y p.x))
      (fun sa => Point.mk sa.northing sa.easting) _ _
      (by decide) (by decide) (by decide)).1,
    by decide, by decide⟩

/-! ## Claim C4 -/

/-- Claim C4: a stop row whose stop code has no entry in the membership
mapping fails the entire stop-import step: whenever some decoded row's
code is unresolved, `read_stops` returns an error (no collection is
returned); and when the rows before it all process successfully, the
error names that stop code. -/
theorem read_stops_unresolved_reference :
    (∀ (m : List (String × String)) (records : List RawRecord)
        (stops : List NaPTANStop),
      decodeAllStops records = Except.ok stops →
      (∃ st ∈ stops, hmGet m st.atco_code = none) →
      ∃ e, read_stops m records = Except.error e) ∧
    (∀ (m : List (String × String)) (pre rest : List RawRecord) (r : RawRecord)
        (acc : List StopPoint) (st : NaPTANStop),
      read_stops_go m [] pre = Except.ok acc →
      decodeStop r = Except.ok st →
      hmGet m st.atco_code = none →
      read_stops m (pre ++ r :: rest) =
        Except.error
          ("Failed to find the corresponding StopArea for the StopPoint "
            ++ st.atco_code)) := by
  constructor
  · intro m records stops hdec hex
    obtain ⟨st, hst, hnone⟩ := hex
    cases hres : read_stops m records with
    | error e => exact ⟨e, rfl⟩
    | ok out =>
      obtain ⟨hall, -⟩ := read_stops_go_ok_inv m records stops [] out hres hdec
      obtain ⟨⟨v, hv⟩, -⟩ := hall st hst
      rw [hnone] at hv
      exact Option.noConfusion hv
  · intro m pre rest r acc st hpre hdr hnone
    unfold read_stops
    rw [read_stops_go_append m pre (r :: rest) [] acc hpre]
    simp only [read_stops_go, hdr, hnone]

theorem read_stops_unresolved_reference_witness :
    read_stops_go [] [] [] = Except.ok [] ∧
    decodeStop
        [("ATCOCode", "0100053264"), ("CommonName", "Alberton Road"),
          ("Indicator", "NE-bound"), ("Longitude", "-2.5"), ("Latitude", "51.25")] =
      Except.ok ⟨"0100053264", "Alberton Road", -(mkRat 25 10), mkRat 5125 100,
        "NE-bound"⟩ ∧
    hmGet [] "0100053264" = none ∧
    read_stops []
        ([] ++ [("ATCOCode", "0100053264"), ("CommonName", "Alberton Road"),
          ("Indicator", "NE-bound"), ("Longitude", "-2.5"),
          ("Latitude", "51.25")] :: []) =
      Except.error
        ("Failed to find the corresponding StopArea for the StopPoint "
          ++ "0100053264") :=
  ⟨by decide, by decide, by decide,
    read_stops_unresolved_reference.2 [] [] []
      [("ATCOCode", "0100053264"), ("CommonName", "Alberton Road"),
        ("Indicator", "NE-bound"), ("Longitude", "-2.5"), ("Latitude", "51.25")]
      []
      ⟨"0100053264", "Alberton Road", -(mkRat 25 10), mkRat 5125 100, "NE-bound"⟩
      (by decide) (by decide) (by decide)⟩

/-! ## Claim C6 -/

/-- Claim C6: inserting an entity whose identifier is already present is a
hard failure regardless of the other field values: whenever the decoded
rows of a stop-area file (resp. stop file) carry a repeated area code
(resp. ATCO code), `read_stop_areas` (resp. `read_stops`) fails. -/
theorem duplicate_identifier_hard_failure :
    (∀ (convert : Point → Except String Point) (records : List RawRecord)
        (sas : List NaPTANStopArea),
      decodeAllStopAreas records = Except.ok sas →
      ¬(sas.map (fun sa => sa.stop_area_code)).Nodup →
      ∃ e, read_stop_areas convert records = Except.error e) ∧
    (∀ (m : List (String × String)) (records : List RawRecord)
        (stops : List NaPTANStop),
      decodeAllStops records = Except.ok stops →
      ¬(stops.map (fun st => st.atco_code)).Nodup →
      ∃ e, read_stops m records = Except.error e) := by
  constructor
  · intro convert records sas hdec hdup
    cases hres : read_stop_areas convert records with
    | error e => exact ⟨e, rfl⟩
    | ok out =>
      exact absurd
        (read_stop_areas_go_ok_inv convert records sas [] out hres hdec).2 hdup
  · intro m records stops hdec hdup
    cases hres : read_stops m records with
    | error e => exact ⟨e, rfl⟩
    | ok out =>
      exact absurd (read_stops_go_ok_inv m records stops [] out hres hdec).2 hdup

theorem duplicate_identifier_hard_failure_witness :
    (decodeAllStopAreas
        [[("StopAreaCode", "010G0001"), ("Name", "Bristol Bus Station"),
            ("Easting", "358929"), ("Northing", "173523")],
          [("StopAreaCode", "010G0001"), ("Name", "Another Name"),
            ("Easting", "1"), ("Northing", "2")]] =
      Except.ok [⟨"010G0001", "Bristol Bus Station", mkRat 358929 1, mkRat 173523 1⟩,
        ⟨"010G0001", "Another Name", mkRat 1 1, mkRat 2 1⟩] ∧
      ¬((([⟨"010G0001", "Bristol Bus Station", mkRat 358929 1, mkRat 173523 1⟩,
            ⟨"010G0001", "Another Name", mkRat 1 1, mkRat 2 1⟩] :
          List NaPTANStopArea).map (fun sa => sa.stop_area_code)).Nodup) ∧
      ∃ e, read_stop_areas (fun p => Except.ok p)
          [[("StopAreaCode", "010G0001"), ("Name", "Bristol Bus Station"),
              ("Easting", "358929"), ("Northing", "173523")],
            [("StopAreaCode", "010G0001"), ("Name", "Another Name"),
              ("Easting", "1"), ("Northing", "2")]] = Except.error e) ∧
    (∃ e, read_stops [("0100053316", "010G0001")]
        [[("ATCOCode", "0100053316"), ("CommonName", "Broad Walk Shops"),
            ("Indicator", "Stop B"), ("Longitude", "-2.5"), ("Latitude", "51.25")],
          [("ATCOCode", "0100053316"), ("CommonName", "Broad Walk Shops"),
            ("Indicator", "Stop B"), ("Longitude", "-2.5"),
            ("Latitude", "51.25")]] = Except.error e) :=
  ⟨⟨by decide, by decide,
      duplicate_identifier_hard_failure.1 (fun p => Except.ok p) _
        [⟨"010G0001", "Bristol Bus Station", mkRat 358929 1, mkRat 173523 1⟩,
          ⟨"010G0001", "Another Name", mkRat 1 1, mkRat 2 1⟩]
        (by decide) (by decide)⟩,
    duplicate_identifier_hard_failure.2 [("0100053316", "010G0001")] _
      [⟨"0100053316", "Broad Walk Shops", -(mkRat 25 10), mkRat 5125 100, "Stop B"⟩,
        ⟨"0100053316", "Broad Walk Shops", -(mkRat 25 10), mkRat 5125 100, "Stop B"⟩]
      (by decide) (by decide)⟩

/-! ## Claim C7 -/

/-- Claim C7: merging two collections of the same entity type with
disjoint identifier sets succeeds and yields the union of both; merging
when some identifier exists in both fails (and hence overwrites nothing). -/
theorem try_merge_union_or_collision :
    (∀ (α : Type) (getId : α → String) (c other : List α),
      (other.map getId).Nodup →
      (∀ x ∈ other, getId x ∉ c.map getId) →
      try_merge getId c other = Except.ok (c ++ other)) ∧
    (∀ (α : Type) (getId : α → String) (c other : List α) (x : α),
      x ∈ other → getId x ∈ c.map getId →
      ∃ e, try_merge getId c other = Except.error e) := by
  constructor
  · intro α getId c other
    induction other generalizing c with
    | nil =>
      intro _ _
      simp [try_merge]
    | cons y rest ih =>
      intro hnodup hdisj
      simp only [List.map_cons, List.nodup_cons] at hnodup
      simp only [try_merge, cwi_push]
      rw [if_neg (hdisj y (List.mem_cons_self y rest))]
      have hrest : ∀ x ∈ rest, getId x ∉ List.map getId (c ++ [y]) := by
        intro x hx hin
        rw [List.map_append] at hin
        rcases List.mem_append.mp hin with hin | hin
        · exact hdisj x (List.mem_cons_of_mem y hx) hin
        · simp only [List.map_cons, List.map_nil, List.mem_singleton] at hin
          exact hnodup.1 (hin ▸ List.mem_map_of_mem getId hx)
      exact (ih (c ++ [y]) hnodup.2 hrest).trans (congrArg Except.ok (by simp))
  · intro α getId c other
    induction other generalizing c with
    | nil =>
      intro x hx
      exact absurd hx (List.not_mem_nil x)
    | cons y rest ih =>
      intro x hx hxc
      simp only [try_merge, cwi_push]
      by_cases hy : getId y ∈ c.map getId
      · rw [if_pos hy]
        exact ⟨_, rfl⟩
      · rw [if_neg hy]
        rcases List.mem_cons.mp hx with hx | hx
        · subst hx
          exact absurd hxc hy
        · refine ih (c ++ [y]) x hx ?_
          rw [List.map_append]
          exact List.mem_append_left _ hxc

theorem try_merge_union_or_collision_witness :
    ((([⟨"B", "b", ⟨mkRat 2 1, mkRat 2 1⟩⟩] : List StopArea).map
        StopArea.id).Nodup ∧
      (∀ x ∈ ([⟨"B", "b", ⟨mkRat 2 1, mkRat 2 1⟩⟩] : List StopArea),
        StopArea.id x ∉
          ([⟨"A", "a", ⟨mkRat 1 1, mkRat 1 1⟩⟩] : List StopArea).map StopArea.id) ∧
      try_merge StopArea.id [⟨"A", "a", ⟨mkRat 1 1, mkRat 1 1⟩⟩]
          [⟨"B", "b", ⟨mkRat 2 1, mkRat 2 1⟩⟩] =
        Except.ok ([⟨"A", "a", ⟨mkRat 1 1, mkRat 1 1⟩⟩] ++
          [⟨"B", "b", ⟨mkRat 2 1, mkRat 2 1⟩⟩])) ∧
    (∃ e, try_merge StopArea.id [⟨"A", "a", ⟨mkRat 1 1, mkRat 1 1⟩⟩]
        [⟨"A", "other", ⟨mkRat 9 1, mkRat 9 1⟩⟩] = Except.error e) :=
  ⟨⟨by decide, by decide,
      try_merge_union_or_collision.1 StopArea StopArea.id
        [⟨"A", "a", ⟨mkRat 1 1, mkRat 1 1⟩⟩]
        [⟨"B", "b", ⟨mkRat 2 1, mkRat 2 1⟩⟩] (by decide) (by decide)⟩,
    try_merge_union_or_collision.2 StopArea StopArea.id
      [⟨"A", "a", ⟨mkRat 1 1, mkRat 1 1⟩⟩]
      [⟨"A", "other", ⟨mkRat 9 1, mkRat 9 1⟩⟩]
      ⟨"A", "other", ⟨mkRat 9 1, mkRat 9 1⟩⟩
      (List.mem_singleton.mpr rfl) (by decide)⟩

/-! ## Claim C8 -/

/-- Claim C8: `read_stops_in_area` builds a mapping from each child stop
code to its parent area code; when several rows share the same stop code,
the lookup returns the parent of the last such row (last write wins), and
duplicate child entries never cause a failure: any decodable input yields
a mapping. -/
theorem read_stops_in_area_last_write_wins (records : List RawRecord)
    (sias : List NaPTANStopInArea)
    (hdec : decodeAllStopsInArea records = Except.ok sias) :
    ∃ m, read_stops_in_area records = Except.ok m ∧
      ∀ key, hmGet m key = lastMatch sias key := by
  refine ⟨(sias.map (fun s => (s.atco_code, s.stop_area_code))).reverse, ?_, ?_⟩
  · have h := read_stops_in_area_go_spec records sias [] hdec
    simpa [read_stops_in_area] using h
  · exact hmGet_reverse_lastMatch sias

theorem read_stops_in_area_last_write_wins_witness :
    decodeAllStopsInArea
        [[("AtcoCode", "0100X"), ("StopAreaCode", "010G0001")],
          [("AtcoCode", "0100X"), ("StopAreaCode", "010G0002")]] =
      Except.ok [⟨"0100X", "010G0001"⟩, ⟨"0100X", "010G0002"⟩] ∧
    (∃ m, read_stops_in_area
        [[("AtcoCode", "0100X"), ("StopAreaCode", "010G0001")],
          [("AtcoCode", "0100X"), ("StopAreaCode", "010G0002")]] =
        Except.ok m ∧
      ∀ key, hmGet m key =
        lastMatch [⟨"0100X", "010G0001"⟩, ⟨"0100X", "010G0002"⟩] key) ∧
    lastMatch [⟨"0100X", "010G0001"⟩, ⟨"0100X", "010G0002"⟩] "0100X" =
      some "010G0002" :=
  ⟨by decide,
    read_stops_in_area_last_write_wins _
      [⟨"0100X", "010G0001"⟩, ⟨"0100X", "010G0002"⟩] (by decide),
    by decide⟩

/-! ## Claim C9 -/

/-- Claim C9 is false on the code: the indicator field of a stop row is
required, not optional: this record carries a valid stop code, name,
longitude and latitude but no indicator, and decoding fails instead of
producing a stop with no platform label. -/
theorem decodeStop_missing_indicator_counterexample :
    decodeStop
        [("ATCOCode", "0100053316"), ("CommonName", "Broad Walk Shops"),
          ("Longitude", "-2.5"), ("Latitude", "51.25")] =
      Except.error "missing field Indicator" := by decide

/-- Claim C9 (amended): in the stop file, both the indicator field and the
stop code field are required for decoding to succeed: a row lacking either
fails to decode; and a row that decodes always carries its indicator
value, which `read_stops` then stores as the (always-`Some`) platform
label. -/
theorem decodeStop_required_fields :
    (∀ r : RawRecord, getField r "Indicator" = none →
      ∃ e, decodeStop r = Except.error e) ∧
    (∀ r : RawRecord, getField r "ATCOCode" = none →
      ∃ e, decodeStop r = Except.error e) ∧
    (∀ (r : RawRecord) (st : NaPTANStop), decodeStop r = Except.ok st →
      getField r "Indicator" = some st.indicator) := by
  refine ⟨?_, ?_, ?_⟩
  · intro r h
    cases h1 : getField r "ATCOCode" with
    | none => exact ⟨"missing field ATCOCode", by simp [decodeStop, h1]⟩
    | some atco =>
      cases h2 : getField r "CommonName" with
      | none => exact ⟨"missing field CommonName", by simp [decodeStop, h1, h2]⟩
      | some nm =>
        cases h3 : getField r "Longitude" with
        | none => exact ⟨"missing field Longitude", by simp [decodeStop, h1, h2, h3]⟩
        | some lonStr =>
          cases h4 : parseDecimal lonStr with
          | none =>
            exact ⟨"invalid float for field Longitude",
              by simp [decodeStop, h1, h2, h3, h4]⟩
          | some lon =>
            cases h5 : getField r "Latitude" with
            | none =>
              exact ⟨"missing field Latitude",
                by simp [decodeStop, h1, h2, h3, h4, h5]⟩
            | some latStr =>
              cases h6 : parseDecimal latStr with
              | none =>
                exact ⟨"invalid float for field Latitude",
                  by simp [decodeStop, h1, h2, h3, h4, h5, h6]⟩
              | some lat =>
                exact ⟨"missing field Indicator",
                  by simp [decodeStop, h1, h2, h3, h4, h5, h6, h]⟩
  · intro r h
    exact ⟨"missing field ATCOCode", by simp [decodeStop, h]⟩
  · intro r st h
    simp only [decodeStop] at h
    cases h1 : getField r "ATCOCode" with
    | none => simp only [h1] at h; exact Except.noConfusion h
    | some atco =>
      simp only [h1] at h
      cases h2 : getField r "CommonName" with
      | none => simp only [h2] at h; exact Except.noConfusion h
      | some nm =>
        simp only [h2] at h
        cases h3 : getField r "Longitude" with
        | none => simp only [h3] at h; exact Except.noConfusion h
        | some lonStr =>
          simp only [h3] at h
          cases h4 : parseDecimal lonStr with
          | none => simp only [h4] at h; exact Except.noConfusion h
          | some lon =>
            simp only [h4] at h
            cases h5 : getField r "Latitude" with
            | none => simp only [h5] at h; exact Except.noConfusion h
            | some latStr =>
              simp only [h5] at h
              cases h6 : parseDecimal latStr with
              | none => simp only [h6] at h; exact Except.noConfusion h
              | some lat =>
                simp only [h6] at h
                cases h7 : getField r "Indicator" with
                | none => simp only [h7] at h; exact Except.noConfusion h
                | some ind =>
                  simp only [h7] at h
                  injection h with hst
                  rw [← hst]

theorem decodeStop_required_fields_witness :
    getField
        [("ATCOCode", "0100053316"), ("CommonName", "Broad Walk Shops"),
          ("Longitude", "-2.5"), ("Latitude", "51.25")] "Indicator" = none ∧
    (∃ e, decodeStop
        [("ATCOCode", "0100053316"), ("CommonName", "Broad Walk Shops"),
          ("Longitude", "-2.5"), ("Latitude", "51.25")] = Except.error e) ∧
    getField
        [("CommonName", "Broad Walk Shops"), ("Indicator", "Stop B"),
          ("Longitude", "-2.5"), ("Latitude", "51.25")] "ATCOCode" = none ∧
    (∃ e, decodeStop
        [("CommonName", "Broad Walk Shops"), ("Indicator", "Stop B"),
          ("Longitude", "-2.5"), ("Latitude", "51.25")] = Except.error e) ∧
    getField
        [("ATCOCode", "0100053316"), ("CommonName", "Broad Walk Shops"),
          ("Indicator", "Stop B"), ("Longitude", "-2.5"), ("Latitude", "51.25")]
        "Indicator" = some "Stop B" :=
  ⟨by decide,
    decodeStop_required_fields.1
      [("ATCOCode", "0100053316"), ("CommonName", "Broad Walk Shops"),
        ("Longitude", "-2.5"), ("Latitude", "51.25")] (by decide),
    by decide,
    decodeStop_required_fields.2.1
      [("CommonName", "Broad Walk Shops"), ("Indicator", "Stop B"),
        ("Longitude", "-2.5"), ("Latitude", "51.25")] (by decide),
    decodeStop_required_fields.2.2
      [("ATCOCode", "0100053316"), ("CommonName", "Broad Walk Shops"),
        ("Indicator", "Stop B"), ("Longitude", "-2.5"), ("Latitude", "51.25")]
      ⟨"0100053316", "Broad Walk Shops", -(mkRat 25 10), mkRat 5125 100, "Stop B"⟩
      (by decide)⟩
